import Mathlib

/-!
Shallow embedding of the `lightstreamer-client` Python module
(`lightstreamer_client/__init__.py`) and proofs about its field-decode
protocol, subscription bookkeeping and stream-loop state machine.

Mutable Python state is modelled by explicit state passing; a raised
exception is modelled by `Except`, where the error value carries the
state as it was at the moment the exception was raised.  Python `dict`s
are modelled as insertion-ordered association lists manipulated only
through `dictInsert` / `dictGet` / `dictRemove`, which reproduce the
`d[k] = v`, `d.get(k)` / `k in d`, and `del d[k]` semantics.
-/

namespace LSClient

/-- Python exception kinds that the embedded code can raise. -/
inductive PyErr where
  | valueError
  | indexError
  | keyError
  | listenerError
deriving DecidableEq

/-- `d[k] = v` on an insertion-ordered dict: replace in place if the key is
present, otherwise append at the end. -/
def dictInsert [DecidableEq α] (k : α) (v : β) : List (α × β) → List (α × β)
  | [] => [(k, v)]
  | p :: rest => if p.1 = k then (k, v) :: rest else p :: dictInsert k v rest

/-- `d.get(k)` (and `k in d` via `isSome`). -/
def dictGet [DecidableEq α] (k : α) : List (α × β) → Option β
  | [] => none
  | p :: rest => if p.1 = k then some p.2 else dictGet k rest

/-- `del d[k]`. -/
def dictRemove [DecidableEq α] (k : α) : List (α × β) → List (α × β)
  | [] => []
  | p :: rest => if p.1 = k then rest else p :: dictRemove k rest

/-- `dict(pairs)`: build a dict from a pair list, left to right, with later
occurrences of a key overriding earlier ones. -/
def dictOfList [DecidableEq α] (l : List (α × β)) : List (α × β) :=
  l.foldl (fun d p => dictInsert p.1 p.2 d) []

/-- Python `s.split(sep)` for a one-character separator. -/
def splitChar (sep : Char) : List Char → List (List Char)
  | [] => [[]]
  | c :: rest =>
    let r := splitChar sep rest
    if c = sep then [] :: r
    else (c :: r.headD []) :: r.tail

/-- Python `s.split(sep, 1)` for a one-character separator: `none` when the
separator does not occur (the result is then the single piece `s`). -/
def splitOnce (sep : Char) : List Char → Option (List Char × List Char)
  | [] => none
  | c :: rest =>
    if c = sep then some ([], rest)
    else (splitOnce sep rest).map (fun p => (c :: p.1, p.2))

/-- Python `s.rstrip(chars)`: drop trailing characters satisfying `p`. -/
def dropTrailing (p : Char → Bool) (cs : List Char) : List Char :=
  (cs.reverse.dropWhile p).reverse

/-- Python `s.strip()`: drop leading and trailing whitespace. -/
def pyStrip (cs : List Char) : List Char :=
  ((cs.dropWhile Char.isWhitespace).reverse.dropWhile Char.isWhitespace).reverse

/-- Python `s.startswith(pre)`. -/
def beginsWith : List Char → List Char → Bool
  | [], _ => true
  | _ :: _, [] => false
  | p :: ps, c :: cs => p == c && beginsWith ps cs

/-- Python `s.startswith(pre)` on `String`. -/
def pyStartsWith (s pre : String) : Bool :=
  beginsWith pre.data s.data

/-- A non-empty all-digit character list read as a natural number. -/
def digitsToNat? (cs : List Char) : Option Nat :=
  if cs = [] then none
  else if cs.all Char.isDigit then
    some (cs.foldl (fun n c => 10 * n + (c.toNat - 48)) 0)
  else none

/-- Python `int(s)` on a decimal string literal: surrounding whitespace is
stripped, an optional single sign is allowed, the rest must be digits
(`none` models the `ValueError` raised otherwise). -/
def pyInt (s : String) : Option Int :=
  match pyStrip s.data with
  | '-' :: rest => (digitsToNat? rest).map (fun n => -(n : Int))
  | '+' :: rest => (digitsToNat? rest).map (fun n => (n : Int))
  | cs => (digitsToNat? cs).map (fun n => (n : Int))

/-- Python `l[i]` with an `int` index: non-negative indices count from the
front, negative indices from the back, anything out of range is an
`IndexError` (`none`). -/
def pyGet (l : List α) (i : Int) : Option α :=
  if 0 ≤ i then l.get? i.toNat
  else if 0 ≤ (l.length : Int) + i then l.get? ((l.length : Int) + i).toNat
  else none

/-- `LightStreamerSubscription._decode(value, last)`: the field-codec rule.
A decoded value of `none` is Python's `None` (the null marker). -/
def lsDecode (value : String) (last : Option String) : Option String :=
  if value = "$" then some ""
  else if value = "#" then none
  else if value = "" then last
  else if value.data.headD ' ' = '#' ∨ value.data.headD ' ' = '$' then
    some (String.mk (value.data.drop 1))
  else some value

/-- One `LightStreamerSubscription`: schema, flags, and the per-item decoded
state cache `_items_map` (item position → field name → decoded value). -/
structure Subscription where
  item_names : List String
  field_names : List String
  adapter : String
  mode : String
  snapshot : Bool
  notify_new_values : Bool
  items_map : List (Int × List (String × Option String))

/-- The event passed to each listener by `notify_update`. -/
structure Event where
  pos : Int
  name : String
  values : List (String × Option String)

/-- `item_line.rstrip('\r\n').split('|')` from `notify_update`. -/
def lineTokens (line : String) : List String :=
  (splitChar '|' (dropTrailing (fun c => c = '\r' || c = '\n') line.data)).map String.mk

/-- The `notify_new_values == False` branch of `notify_update`: the new map
stored for the item, built from only the fields zipped with this line's
tokens, each decoded against the previous cached value
(`self._decode(v, curr_item.get(k))`). -/
def mergeItem (fields toks : List String) (curr : List (String × Option String)) :
    List (String × Option String) :=
  dictOfList ((dictOfList (fields.zip toks)).map
    (fun p => (p.1, lsDecode p.2 ((dictGet p.1 curr).join))))

/-- `LightStreamerSubscription.notify_update(item_line)`.  `fail ev = true`
models some registered listener raising when handed `ev`; the error value
carries the subscription state at the moment of the raise (the cache update
precedes listener dispatch in the source). -/
def notifyUpdateL (fail : Event → Bool) (sub : Subscription) (item_line : String) :
    Except (Subscription × PyErr) (Subscription × Event) :=
  let tokens := lineTokens item_line
  match pyInt (tokens.headD "") with
  | none => .error (sub, .valueError)
  | some item_pos =>
    match pyGet sub.item_names (item_pos - 1) with
    | none => .error (sub, .indexError)
    | some item_name =>
      if sub.notify_new_values then
        let item_values := dictOfList
          (((sub.field_names.zip (tokens.drop 1)).filter (fun p => p.2 ≠ "")).map
            (fun p => (p.1, some p.2)))
        let ev : Event := ⟨item_pos, item_name, item_values⟩
        if fail ev then .error (sub, .listenerError) else .ok (sub, ev)
      else
        let newItem := mergeItem sub.field_names (tokens.drop 1)
          ((dictGet item_pos sub.items_map).getD [])
        let sub' : Subscription := { sub with items_map := dictInsert item_pos newItem sub.items_map }
        let ev : Event := ⟨item_pos, item_name, newItem⟩
        if fail ev then .error (sub', .listenerError) else .ok (sub', ev)

/-- The subscription state after `notify_update`, whether or not it raised
(mutations made before a raise persist on the Python object). -/
def notifyState (fail : Event → Bool) (sub : Subscription) (line : String) : Subscription :=
  match notifyUpdateL fail sub line with
  | .ok p => p.1
  | .error p => p.1

/-- The event `notify_update` dispatched to listeners, when it completed. -/
def eventOf (fail : Event → Bool) (sub : Subscription) (line : String) : Option Event :=
  match notifyUpdateL fail sub line with
  | .ok p => some p.2
  | .error _ => none

/-- The trivial listener behaviour: no listener ever raises. -/
def failNone : Event → Bool := fun _ => false

/-- The mutable state of a `LightStreamerClient` instance: the `_session`
dict, the `_subscriptions` dict, `_current_subscription_key`,
`_bind_counter`, whether `_stream_connection` is set, and the custom part
of `_control_url` (`none` when it is the base address or still unset). -/
structure ClientState where
  session : List (String × String)
  subscriptions : List (Int × Subscription)
  current_subscription_key : Int
  bind_counter : Nat
  stream_open : Bool
  control_link : Option String

/-- The state right after `LightStreamerClient.__init__`. -/
def freshClient : ClientState :=
  { session := [], subscriptions := [], current_subscription_key := 0,
    bind_counter := 0, stream_open := false, control_link := none }

/-- A control request as assembled for `_control` (the `LS_Table` and
`LS_op` fields; the HTTP transport itself is an external collaborator). -/
structure ControlRequest where
  table : Option Int
  op : String
deriving DecidableEq

/-- `LightStreamerClient.subscribe(subscription)`: increments the key
counter, registers the subscription under the new key before the server
confirms, sends the ADD control request, and returns the key regardless of
the server's response (a non-OK response is only logged, the registration
is not rolled back). -/
def subscribe (st : ClientState) (sub : Subscription) : ClientState × Int :=
  let key := st.current_subscription_key + 1
  ({ st with current_subscription_key := key,
             subscriptions := dictInsert key sub st.subscriptions }, key)

/-- `LightStreamerClient.unsubscribe(subscription_key)` with the server's
first response line given as `response`.  Returns the new state and the
control request sent, if any: an unknown key is only logged and the server
is not contacted; a known key sends DELETE and is removed only when the
response is the literal `"OK"`. -/
def unsubscribe (st : ClientState) (key : Int) (response : String) :
    ClientState × Option ControlRequest :=
  if (dictGet key st.subscriptions).isSome then
    if response = "OK" then
      ({ st with subscriptions := dictRemove key st.subscriptions },
       some ⟨some key, "delete"⟩)
    else (st, some ⟨some key, "delete"⟩)
  else (st, none)

/-- A run of successive `subscribe` calls, returning the keys in order. -/
def runSubs : ClientState → List Subscription → ClientState × List Int
  | st, [] => (st, [])
  | st, s :: rest =>
    let p := subscribe st s
    let q := runSubs p.1 rest
    (q.1, p.2 :: q.2)

/-- The body of the `try` block in
`LightStreamerClient._forward_update_message`: split the data line at the
first comma, parse the table key, and dispatch to the matching
subscription (an unknown table is only logged).  Errors carry the client
state at the moment of the raise. -/
def forwardInner (fail : Event → Bool) (st : ClientState) (um : String) :
    Except (ClientState × PyErr) ClientState :=
  match splitOnce ',' um.data with
  | none =>
    match pyInt um with
    | none => .error (st, .valueError)
    | some _ => .error (st, .indexError)
  | some (t0, t1) =>
    match pyInt (String.mk t0) with
    | none => .error (st, .valueError)
    | some table =>
      match dictGet table st.subscriptions with
      | some sub =>
        match notifyUpdateL fail sub (String.mk t1) with
        | .ok p => .ok { st with subscriptions := dictInsert table p.1 st.subscriptions }
        | .error p => .error ({ st with subscriptions := dictInsert table p.1 st.subscriptions }, p.2)
      | none => .ok st

/-- `LightStreamerClient._forward_update_message`: the whole body runs
under `try ... except Exception`, so every raise is caught and the state at
the raise point is kept. -/
def forwardUpdateMessage (fail : Event → Bool) (st : ClientState) (um : String) : ClientState :=
  match forwardInner fail st um with
  | .ok s => s
  | .error p => p.1

/-- What one iteration of the `_receive` loop decides to do next. -/
inductive StepOutcome where
  | cont
  | termClear
  | termRebind
deriving DecidableEq

/-- One iteration of the `while receive` loop in
`LightStreamerClient._receive`.  The message is `none` when the read
raised (caught and logged as a communication error); a whitespace-only
line is likewise turned into `None` before classification. -/
def receiveStep (fail : Event → Bool) (st : ClientState) (msg : Option String) :
    ClientState × StepOutcome :=
  match msg with
  | none => (st, .termClear)
  | some m =>
    if pyStrip m.data = [] then (st, .termClear)
    else if m = "PROBE" then (st, .cont)
    else if pyStartsWith m "ERROR" then (st, .termClear)
    else if pyStartsWith m "LOOP" then (st, .termRebind)
    else if pyStartsWith m "SYNC ERROR" then (st, .termClear)
    else if pyStartsWith m "END" then (st, .termClear)
    else if pyStartsWith m "Preamble" then (st, .cont)
    else (forwardUpdateMessage fail st m, .cont)

/-- The `while receive` loop of `_receive` over a list of reads: returns
the state when the loop stops together with the `rebind` flag, or `none`
when the given reads are exhausted while the loop is still running. -/
def receiveSteps (fail : Event → Bool) :
    ClientState → List (Option String) → ClientState × Option Bool
  | st, [] => (st, none)
  | st, msg :: rest =>
    match receiveStep fail st msg with
    | (st', .cont) => receiveSteps fail st' rest
    | (st', .termClear) => (st', some false)
    | (st', .termRebind) => (st', some true)

/-- The `if not rebind` block at the end of `_receive`: drop the stream
connection, clear `_session` and `_subscriptions`, and zero the key
counter.  (`_bind_counter` and `_control_url` are not touched there.) -/
def clearSession (st : ClientState) : ClientState :=
  { st with stream_open := false, session := [], subscriptions := [],
            current_subscription_key := 0 }

/-- The session-parsing loop of `_handle_stream`: read `key:value` lines
into `_session` until a blank line.  A line without a colon raises
(`ValueError` from unpacking `split(":", 1)`); the error value carries the
entries inserted before the raise. -/
def parseSessionLinesE (sess : List (String × String)) :
    List String → Except (List (String × String)) (List (String × String))
  | [] => .ok sess
  | l :: rest =>
    if l = "" then .ok sess
    else
      match splitOnce ':' l.data with
      | some p => parseSessionLinesE (dictInsert (String.mk p.1) (String.mk p.2) sess) rest
      | none => .error sess

/-- Outcome of `LightStreamerClient._handle_stream`:
`started` means the handshake succeeded and the stream thread was started;
`failed` means the first line was not `OK`, the remaining buffered lines
were surfaced together with it, and `IOError` was raised (no thread);
`parseFailed` means a session `key:value` line raised while parsing (no
thread).  Each constructor carries the client state at that point. -/
inductive HandshakeResult where
  | started (st : ClientState)
  | failed (st : ClientState) (surfaced : List String)
  | parseFailed (st : ClientState)

/-- `LightStreamerClient._handle_stream(stream_line)` over the remaining
buffered stream lines `rest`. -/
def handleStream (st : ClientState) (firstLine : String) (rest : List String) :
    HandshakeResult :=
  if firstLine = "OK" then
    match parseSessionLinesE st.session rest with
    | .ok sess' =>
      .started { st with session := sess', control_link := dictGet "ControlAddress" sess' }
    | .error sessPartial => .parseFailed { st with session := sessPartial }
  else .failed st (firstLine :: rest)

/-- `LightStreamerClient.bind()` with the server's handshake response given
as `firstLine` / `rest`: sends `LS_session = self._session["SessionId"]`
(a missing id is a `KeyError`), opens the new stream connection,
increments `_bind_counter`, and runs `_handle_stream`.  On success the
returned pair carries the session id that was sent. -/
def bindModel (st : ClientState) (firstLine : String) (rest : List String) :
    Except PyErr (String × HandshakeResult) :=
  match dictGet "SessionId" st.session with
  | none => .error .keyError
  | some sid =>
    .ok (sid, handleStream
      { st with stream_open := true, bind_counter := st.bind_counter + 1 } firstLine rest)

/-- Outcome of one whole `_receive` task run. -/
inductive RunResult where
  | running (st : ClientState)
  | cleared (st : ClientState)
  | rebound (r : Except PyErr (String × HandshakeResult))

/-- A whole run of `LightStreamerClient._receive` over the reads `msgs`,
with `bf` / `br` the server's response to the rebind handshake should a
LOOP line trigger one. -/
def receiveRun (fail : Event → Bool) (st : ClientState) (msgs : List (Option String))
    (bf : String) (br : List String) : RunResult :=
  match receiveSteps fail st msgs with
  | (st', none) => .running st'
  | (st', some false) => .cleared (clearSession st')
  | (st', some true) => .rebound (bindModel st' bf br)

/-- The session id a `bindModel` call sent to the server, if it got that
far. -/
def sentSessionOf : Except PyErr (String × HandshakeResult) → Option String
  | .ok p => some p.1
  | .error _ => none

/-- The client state carried by a handshake outcome. -/
def hsState : HandshakeResult → ClientState
  | .started s => s
  | .failed s _ => s
  | .parseFailed s => s

/-- The client state after a `bindModel` call (the given default when the
call raised before touching the state). -/
def bindStateOf (r : Except PyErr (String × HandshakeResult)) (dflt : ClientState) :
    ClientState :=
  match r with
  | .ok p => hsState p.2
  | .error _ => dflt

/-- Collapse an `Except` whose two sides carry the same type. -/
def exceptVal : Except α α → α
  | .ok a => a
  | .error a => a

/-- A sample MERGE subscription on one item and two fields, with a given
initial per-item cache. -/
def sampleSub (cache : List (Int × List (String × Option String))) : Subscription :=
  { item_names := ["item1"], field_names := ["f1", "f2"], adapter := "", mode := "MERGE",
    snapshot := true, notify_new_values := false, items_map := cache }

/-- A client mid-session, after five rebinds, holding one subscription. -/
def c3st : ClientState :=
  { session := [("SessionId", "S"), ("ControlAddress", "ca")],
    subscriptions := [(1, sampleSub [])], current_subscription_key := 1,
    bind_counter := 5, stream_open := true, control_link := none }

/-- A fresh client after one `subscribe` call. -/
def c4st1 : ClientState := (subscribe freshClient (sampleSub [])).1

/-- A client mid-session holding one subscription under key 1. -/
def c5st : ClientState :=
  { session := [("SessionId", "S")], subscriptions := [(1, sampleSub [])],
    current_subscription_key := 1, bind_counter := 0, stream_open := true,
    control_link := none }

/-- The state `c5st` reaches after a LOOP-triggered rebind whose handshake
response is `OK` followed by the session line `Foo:bar`. -/
def c5stFin : ClientState :=
  { session := [("SessionId", "S"), ("Foo", "bar")], subscriptions := [(1, sampleSub [])],
    current_subscription_key := 1, bind_counter := 1, stream_open := true,
    control_link := none }

/-- A client holding one subscription under key 1, otherwise fresh. -/
def w7st : ClientState := { freshClient with subscriptions := [(1, sampleSub [])] }

/-- A subscription over two items, for position-indexing runs. -/
def w10sub : Subscription :=
  { item_names := ["a", "b"], field_names := ["f1"], adapter := "", mode := "MERGE",
    snapshot := true, notify_new_values := false, items_map := [] }

/-- The map `notify_update` stores for (and emits about) the item at
`pos`, when fed `line` in the merging branch. -/
def newItemFor (sub : Subscription) (line : String) (pos : Int) :
    List (String × Option String) :=
  mergeItem sub.field_names ((lineTokens line).drop 1)
    ((dictGet pos sub.items_map).getD [])

theorem dictGet_dictInsert [DecidableEq α] (k k2 : α) (v : β) (d : List (α × β)) :
    dictGet k (dictInsert k2 v d) = if k = k2 then some v else dictGet k d := by
  induction d with
  | nil =>
    by_cases h : k = k2
    · subst h; simp [dictInsert, dictGet]
    · have h' : ¬(k2 = k) := fun hh => h hh.symm
      simp [dictInsert, dictGet, h, h']
  | cons p rest ih =>
    by_cases h1 : p.1 = k2
    · subst h1
      by_cases h2 : k = p.1
      · subst h2; simp [dictInsert, dictGet]
      · have h2' : ¬(p.1 = k) := fun hh => h2 hh.symm
        simp [dictInsert, dictGet, h2, h2']
    · by_cases h2 : p.1 = k
      · have h3 : ¬(k = k2) := fun hh => h1 (h2.trans hh)
        simp [dictInsert, dictGet, h1, h2, h3]
      · simp [dictInsert, dictGet, h1, h2, ih]

theorem dictGet_eq_none_of_not_mem [DecidableEq α] (k : α) (d : List (α × β))
    (h : k ∉ d.map Prod.fst) : dictGet k d = none := by
  induction d with
  | nil => rfl
  | cons p rest ih =>
    simp only [List.map_cons, List.mem_cons] at h
    push_neg at h
    rw [dictGet, if_neg (fun h2 => h.1 h2.symm)]
    exact ih h.2

theorem dictGet_foldl_insert [DecidableEq α] (k : α) (l : List (α × β)) (d : List (α × β))
    (h : k ∉ l.map Prod.fst) :
    dictGet k (l.foldl (fun acc p => dictInsert p.1 p.2 acc) d) = dictGet k d := by
  induction l generalizing d with
  | nil => rfl
  | cons p rest ih =>
    simp only [List.map_cons, List.mem_cons] at h
    push_neg at h
    rw [List.foldl_cons, ih _ h.2, dictGet_dictInsert, if_neg h.1]

theorem dictGet_dictOfList_not_mem [DecidableEq α] (k : α) (l : List (α × β))
    (h : k ∉ l.map Prod.fst) : dictGet k (dictOfList l) = none := by
  rw [dictOfList, dictGet_foldl_insert k l [] h]; rfl

theorem mem_keys_dictInsert [DecidableEq α] (a k : α) (v : β) (d : List (α × β)) :
    a ∈ (dictInsert k v d).map Prod.fst ↔ a = k ∨ a ∈ d.map Prod.fst := by
  induction d with
  | nil => simp [dictInsert]
  | cons p rest ih =>
    by_cases h : p.1 = k
    · subst h; simp [dictInsert]
    · simp [dictInsert, h, ih]; tauto

theorem mem_keys_foldl_insert [DecidableEq α] (a : α) (l d : List (α × β))
    (h : a ∈ (l.foldl (fun acc p => dictInsert p.1 p.2 acc) d).map Prod.fst) :
    a ∈ d.map Prod.fst ∨ a ∈ l.map Prod.fst := by
  induction l generalizing d with
  | nil => exact Or.inl h
  | cons p rest ih =>
    rw [List.foldl_cons] at h
    rcases ih _ h with h1 | h1
    · rw [mem_keys_dictInsert] at h1
      rcases h1 with h1 | h1
      · right; simp [h1]
      · left; exact h1
    · right; simp [h1]

theorem mem_keys_dictOfList [DecidableEq α] (a : α) (l : List (α × β))
    (h : a ∈ (dictOfList l).map Prod.fst) : a ∈ l.map Prod.fst := by
  rcases mem_keys_foldl_insert a l [] h with h1 | h1
  · simp at h1
  · exact h1

theorem dictGet_dictRemove_self [DecidableEq α] (k : α) (d : List (α × β))
    (h : (d.map Prod.fst).Nodup) : dictGet k (dictRemove k d) = none := by
  induction d with
  | nil => rfl
  | cons p rest ih =>
    simp only [List.map_cons, List.nodup_cons] at h
    by_cases h1 : p.1 = k
    · subst h1
      rw [dictRemove, if_pos rfl]
      exact dictGet_eq_none_of_not_mem _ _ h.1
    · rw [dictRemove, if_neg h1, dictGet, if_neg h1]
      exact ih h.2

theorem mergeItem_not_mem (fields toks : List String) (curr : List (String × Option String))
    (f : String) (hf : f ∉ (fields.zip toks).map Prod.fst) :
    dictGet f (mergeItem fields toks curr) = none := by
  apply dictGet_dictOfList_not_mem
  intro hmem
  rw [List.map_map] at hmem
  have h2 : f ∈ (dictOfList (fields.zip toks)).map Prod.fst := by
    simpa [Function.comp] using hmem
  exact hf (mem_keys_dictOfList _ _ h2)

/-- C1: for every previous value, `_decode` maps `"$"` to the empty
string, `"#"` to `None`, the empty token to the previous value, `"#X"` to
`"X"`, `"$Y"` to `"Y"`, and any non-empty token that starts with neither
`'#'` nor `'$'` to itself. -/
theorem lsDecode_cases (prev : Option String) (token : String)
    (h1 : token ≠ "") (h2 : pyStartsWith token "#" = false)
    (h3 : pyStartsWith token "$" = false) :
    lsDecode "$" prev = some "" ∧ lsDecode "#" prev = none ∧
    lsDecode "" prev = prev ∧ lsDecode "#X" prev = some "X" ∧
    lsDecode "$Y" prev = some "Y" ∧ lsDecode token prev = some token := by
  refine ⟨rfl, rfl, rfl, rfl, rfl, ?_⟩
  have hA : token ≠ "$" := by
    intro he; rw [he] at h3; exact absurd h3 (by decide)
  have hB : token ≠ "#" := by
    intro he; rw [he] at h2; exact absurd h2 (by decide)
  have hd : token.data ≠ [] := by
    intro hh
    have hh2 : token.data = String.data "" := hh
    exact h1 (String.ext hh2)
  obtain ⟨c, rest, hct⟩ : ∃ c rest, token.data = c :: rest := by
    cases hz : token.data with
    | nil => exact absurd hz hd
    | cons c rest => exact ⟨c, rest, rfl⟩
  have hC : ¬(token.data.headD ' ' = '#' ∨ token.data.headD ' ' = '$') := by
    rintro (h | h) <;> rw [hct] at h <;> simp only [List.headD_cons] at h <;> subst h
    · have hw : pyStartsWith token "#" = true := by
        unfold pyStartsWith
        rw [hct]
        show beginsWith ['#'] ('#' :: rest) = true
        simp [beginsWith]
      rw [hw] at h2; cases h2
    · have hw : pyStartsWith token "$" = true := by
        unfold pyStartsWith
        rw [hct]
        show beginsWith ['$'] ('$' :: rest) = true
        simp [beginsWith]
      rw [hw] at h3; cases h3
  rw [lsDecode, if_neg hA, if_neg hB, if_neg h1, if_neg hC]

/-- Witness for C1 at `prev = some "p"` and `token = "Z"`. -/
theorem lsDecode_cases_witness :
    lsDecode "$" (some "p") = some "" ∧ lsDecode "#" (some "p") = none ∧
    lsDecode "" (some "p") = some "p" ∧ lsDecode "#X" (some "p") = some "X" ∧
    lsDecode "$Y" (some "p") = some "Y" ∧ lsDecode "Z" (some "p") = some "Z" :=
  lsDecode_cases (some "p") "Z" (by decide) (by decide) (by decide)

/-- C6: applying update line `"1|A|"` then `"1||B"` to a MERGE
subscription with fields `[f1, f2]` and `notify_new_values = False`
leaves the cached state for item position 1 equal to
`{f1: "A", f2: "B"}`. -/
theorem merge_two_updates :
    dictGet 1 (notifyState failNone
      (notifyState failNone (sampleSub []) "1|A|") "1||B").items_map =
      some [("f1", some "A"), ("f2", some "B")] := rfl

/-- C2 counterexample: on a subscription with fields `[f1, f2]` and a
cached value `"X"` for `f2` at item 1, the update line `"1|A"` carries
`k = 1 < 2` tokens, yet after `notify_update` the cached map for item 1 is
exactly `{f1: "A"}` — the absent trailing field `f2` did not retain its
previously cached value, and the emitted event's value map is that same
truncated map, not the full merged map. -/
theorem notify_update_drop_cex :
    dictGet 1 (sampleSub [(1, [("f2", some "X")])]).items_map = some [("f2", some "X")] ∧
    (sampleSub [(1, [("f2", some "X")])]).field_names.length = 2 ∧
    (lineTokens "1|A").drop 1 = ["A"] ∧
    dictGet 1 (notifyState failNone (sampleSub [(1, [("f2", some "X")])]) "1|A").items_map =
      some [("f1", some "A")] ∧
    (eventOf failNone (sampleSub [(1, [("f2", some "X")])]) "1|A").map Event.values =
      some [("f1", some "A")] := ⟨rfl, rfl, rfl, rfl, rfl⟩

/-- C3 counterexample: a terminal `END` line does run the clear block, but
`_bind_counter` — the bind count — is not reset: from a state with bind
counter 5 it stays 5, while the claim says the task clears the Session
state including the bind count. -/
theorem terminal_reset_bind_counter_cex :
    receiveRun failNone c3st [some "END"] "" [] = .cleared (clearSession c3st) ∧
    (clearSession c3st).bind_counter = 5 ∧ (clearSession c3st).bind_counter ≠ 0 :=
  ⟨rfl, rfl, by decide⟩

/-- C4 counterexample: key 1 is assigned twice within one client lifetime.
A fresh client's first `subscribe` yields key 1; a terminal `END` then
resets the key counter to 0; the next `subscribe` on the same instance
yields key 1 again — so keys are reused. -/
theorem subscribe_key_reuse_cex :
    (subscribe freshClient (sampleSub [])).2 = 1 ∧
    receiveRun failNone c4st1 [some "END"] "" [] = .cleared (clearSession c4st1) ∧
    (subscribe (clearSession c4st1) (sampleSub [])).2 = 1 := ⟨rfl, rfl, rfl⟩

/-- C2 (amended): with `notify_new_values = False` and a well-formed line,
`notify_update` replaces the cached map for the item by the map built from
exactly the fields zipped with this line's tokens — a field beyond the
line's token count is dropped from the cache (its lookup yields nothing)
rather than retained — and the emitted event's value map is that same new
map. -/
theorem notify_update_replaces_item_map (sub : Subscription) (line : String)
    (pos : Int) (nm : String) (f : String)
    (hnn : sub.notify_new_values = false)
    (hpos : pyInt ((lineTokens line).headD "") = some pos)
    (hnm : pyGet sub.item_names (pos - 1) = some nm)
    (hf : f ∉ (sub.field_names.zip ((lineTokens line).drop 1)).map Prod.fst) :
    notifyUpdateL failNone sub line =
      .ok ({ sub with items_map := dictInsert pos (newItemFor sub line pos) sub.items_map },
           ⟨pos, nm, newItemFor sub line pos⟩) ∧
    dictGet f (newItemFor sub line pos) = none := by
  constructor
  · simp only [notifyUpdateL, newItemFor, hpos, hnm, hnn, failNone, Bool.false_eq_true,
      if_false]
  · exact mergeItem_not_mem _ _ _ _ hf

/-- Witness for the amended C2 theorem at a concrete subscription and
line. -/
theorem notify_update_replaces_item_map_witness :
    dictGet "f2" (mergeItem ["f1", "f2"] ["A"] [("f2", some "X")]) = none := by
  have h := notify_update_replaces_item_map (sampleSub [(1, [("f2", some "X")])]) "1|A"
    1 "item1" "f2" rfl (by decide) (by decide) (by decide)
  exact h.2

/-- C3 (amended): on any terminal classification other than LOOP the task
clears the session map (so the session id and control address entries are
gone), empties the key-to-Subscription mapping, resets the key counter to
zero and drops the stream connection — but the bind counter is not reset:
it keeps its prior value. -/
theorem terminal_reset_clears_state (fail : Event → Bool) (st st' : ClientState)
    (msgs : List (Option String)) (bf : String) (br : List String)
    (h : receiveSteps fail st msgs = (st', some false)) :
    receiveRun fail st msgs bf br = .cleared (clearSession st') ∧
    (clearSession st').session = [] ∧
    (clearSession st').subscriptions = [] ∧
    (clearSession st').current_subscription_key = 0 ∧
    (clearSession st').stream_open = false ∧
    (clearSession st').bind_counter = st'.bind_counter := by
  refine ⟨?_, rfl, rfl, rfl, rfl, rfl⟩
  unfold receiveRun
  rw [h]

/-- Witness for the amended C3 theorem: a concrete `END` run. -/
theorem terminal_reset_clears_state_witness :
    receiveRun failNone c3st [some "END"] "" [] = .cleared (clearSession c3st) ∧
    (clearSession c3st).session = [] ∧
    (clearSession c3st).subscriptions = [] ∧
    (clearSession c3st).current_subscription_key = 0 ∧
    (clearSession c3st).stream_open = false ∧
    (clearSession c3st).bind_counter = c3st.bind_counter :=
  terminal_reset_clears_state failNone c3st c3st [some "END"] "" [] rfl

theorem runSubs_keys (st : ClientState) (subs : List Subscription) :
    (runSubs st subs).2 = (List.range subs.length).map
      (fun (i : Nat) => st.current_subscription_key + 1 + (i : Int)) := by
  induction subs generalizing st with
  | nil => rfl
  | cons s rest ih =>
    show (st.current_subscription_key + 1) :: (runSubs (subscribe st s).1 rest).2 = _
    rw [ih]
    have hk : (subscribe st s).1.current_subscription_key =
        st.current_subscription_key + 1 := rfl
    rw [hk, List.length_cons, List.range_succ_eq_map, List.map_cons, List.map_map]
    congr 1
    · show st.current_subscription_key + 1 =
        st.current_subscription_key + 1 + ((0 : Nat) : Int)
      omega
    · apply List.map_congr_left
      intro i _
      show st.current_subscription_key + 1 + 1 + (i : Int) =
        st.current_subscription_key + 1 + ((i + 1 : Nat) : Int)
      omega

/-- C4 (amended): within a run of `subscribe` calls with no intervening
terminal stream reset, keys are the consecutive integers following the
current counter; from a fresh client they are positive, strictly
increasing, start at 1 and are not repeated, and three successive calls
yield 1, 2, 3.  (After a terminal reset the counter returns to 0 and keys
restart at 1, so keys are reused across resets within one client
lifetime.) -/
theorem subscribe_keys_sequential :
    (∀ (st : ClientState) (subs : List Subscription), (runSubs st subs).2 =
      (List.range subs.length).map
        (fun (i : Nat) => st.current_subscription_key + 1 + (i : Int))) ∧
    (∀ subs : List Subscription, ((runSubs freshClient subs).2).Pairwise (· < ·)) ∧
    (∀ subs : List Subscription,
      ((runSubs freshClient subs).2).all (fun k => decide (0 < k)) = true) ∧
    (∀ subs : List Subscription, ((runSubs freshClient subs).2).Nodup) ∧
    (∀ s1 s2 s3 : Subscription, (runSubs freshClient [s1, s2, s3]).2 = [1, 2, 3]) := by
  have hp : ∀ subs : List Subscription, ((runSubs freshClient subs).2).Pairwise (· < ·) := by
    intro subs
    rw [runSubs_keys, List.pairwise_map]
    refine (List.sorted_lt_range subs.length).imp ?_
    intro a b hab
    omega
  refine ⟨runSubs_keys, hp, ?_, ?_, ?_⟩
  · intro subs
    rw [runSubs_keys, List.all_eq_true]
    intro k hk
    rw [List.mem_map] at hk
    obtain ⟨i, _, rfl⟩ := hk
    simp only [decide_eq_true_eq]
    have h0 : freshClient.current_subscription_key = 0 := rfl
    rw [h0]
    omega
  · intro subs
    exact (hp subs).imp (fun hab => ne_of_lt hab)
  · intro s1 s2 s3; rfl

/-- C5 counterexample: a LOOP-triggered rebind whose handshake response is
`OK` followed by the session line `Foo:bar` leaves the session map
changed (`Foo ↦ bar` was added by `_handle_stream`), so the session map is
not unchanged across the rebind (though the session id sent to `bind` is
the same and the subscriptions and key counter are untouched). -/
theorem loop_rebind_session_cex :
    receiveRun failNone c5st [some "LOOP"] "OK" ["Foo:bar"] =
      .rebound (.ok ("S", .started c5stFin)) ∧
    c5stFin.session ≠ c5st.session ∧
    c5stFin.subscriptions = c5st.subscriptions ∧
    c5stFin.current_subscription_key = c5st.current_subscription_key :=
  ⟨rfl, by decide, rfl, rfl⟩

theorem handleStream_fixed_fields (st : ClientState) (fl : String) (rest : List String) :
    (hsState (handleStream st fl rest)).subscriptions = st.subscriptions ∧
    (hsState (handleStream st fl rest)).current_subscription_key =
      st.current_subscription_key ∧
    (hsState (handleStream st fl rest)).bind_counter = st.bind_counter ∧
    (hsState (handleStream st fl rest)).stream_open = st.stream_open := by
  unfold handleStream
  by_cases hfl : fl = "OK"
  · rw [if_pos hfl]
    cases hq : parseSessionLinesE st.session rest <;> simp [hsState]
  · rw [if_neg hfl]
    exact ⟨rfl, rfl, rfl, rfl⟩

theorem parseSessionLinesE_keeps (k : String) (rest : List String) :
    ∀ sess : List (String × String), (dictGet k sess).isSome = true →
      (dictGet k (exceptVal (parseSessionLinesE sess rest))).isSome = true := by
  induction rest with
  | nil => intro sess h; exact h
  | cons l rest ih =>
    intro sess h
    rw [parseSessionLinesE]
    by_cases hl : l = ""
    · rw [if_pos hl]; exact h
    · rw [if_neg hl]
      cases hsp : splitOnce ':' l.data with
      | none => exact h
      | some p =>
        apply ih
        rw [dictGet_dictInsert]
        by_cases hk : k = String.mk p.1 <;> simp [hk, h]

theorem handleStream_session_keeps (k : String) (st : ClientState) (fl : String)
    (rest : List String) (h : (dictGet k st.session).isSome = true) :
    (dictGet k (hsState (handleStream st fl rest)).session).isSome = true := by
  unfold handleStream
  by_cases hfl : fl = "OK"
  · rw [if_pos hfl]
    have hkeep := parseSessionLinesE_keeps k rest st.session h
    cases hq : parseSessionLinesE st.session rest with
    | ok s2 => rw [hq] at hkeep; simpa [hsState, exceptVal] using hkeep
    | error s2 => rw [hq] at hkeep; simpa [hsState, exceptVal] using hkeep
  · rw [if_neg hfl]; exact h

/-- C5 (amended): when the stream loop terminates on a LOOP line, `bind()`
is invoked with the current session id and the reset block is skipped: the
subscriptions and the key counter are unchanged across the rebind, and the
session map is not cleared — every entry present before the rebind is
still present after it (and the map is exactly unchanged when the rebind
handshake supplies no `key:value` lines), though handshake lines may add
or overwrite entries. -/
theorem loop_rebind_preserves_state (fail : Event → Bool) (st st' : ClientState)
    (msgs : List (Option String)) (bf : String) (br : List String)
    (h : receiveSteps fail st msgs = (st', some true)) :
    receiveRun fail st msgs bf br = .rebound (bindModel st' bf br) ∧
    sentSessionOf (bindModel st' bf br) = dictGet "SessionId" st'.session ∧
    (bindStateOf (bindModel st' bf br) st').subscriptions = st'.subscriptions ∧
    (bindStateOf (bindModel st' bf br) st').current_subscription_key =
      st'.current_subscription_key ∧
    (∀ k : String, (dictGet k st'.session).isSome = true →
      (dictGet k (bindStateOf (bindModel st' bf br) st').session).isSome = true) ∧
    (bindStateOf (bindModel st' "OK" []) st').session = st'.session := by
  have hrun : receiveRun fail st msgs bf br = .rebound (bindModel st' bf br) := by
    unfold receiveRun
    rw [h]
  cases hs : dictGet "SessionId" st'.session with
  | none =>
    refine ⟨hrun, ?_, ?_, ?_, ?_, ?_⟩ <;>
      simp [bindModel, sentSessionOf, bindStateOf, hs]
  | some sid =>
    have hfix := handleStream_fixed_fields
      { st' with stream_open := true, bind_counter := st'.bind_counter + 1 } bf br
    refine ⟨hrun, ?_, ?_, ?_, ?_, ?_⟩
    · simp [bindModel, sentSessionOf, hs]
    · simp only [bindModel, hs, bindStateOf]
      exact hfix.1
    · simp only [bindModel, hs, bindStateOf]
      exact hfix.2.1
    · intro k hk
      simp only [bindModel, hs, bindStateOf]
      exact handleStream_session_keeps k _ bf br hk
    · simp only [bindModel, hs, bindStateOf]
      simp [handleStream, parseSessionLinesE, hsState]

/-- Witness for the amended C5 theorem: a concrete LOOP run with an
`OK`-and-blank rebind handshake. -/
theorem loop_rebind_preserves_state_witness :
    sentSessionOf (bindModel c5st "OK" []) = some "S" ∧
    (bindStateOf (bindModel c5st "OK" []) c5st).subscriptions = c5st.subscriptions ∧
    (bindStateOf (bindModel c5st "OK" []) c5st).session = c5st.session := by
  have h := loop_rebind_preserves_state failNone c5st c5st [some "LOOP"] "OK" [] rfl
  exact ⟨h.2.1.trans (by decide), h.2.2.1, h.2.2.2.2.2⟩

/-- C7: for a registered key, `unsubscribe` sends the DELETE control
request and removes the table entry exactly when the response is the
literal `"OK"` (on any other response the whole state is unchanged and the
entry remains registered); for an unknown key no request is sent and the
state is unchanged. -/
theorem unsubscribe_behavior (st : ClientState) (key : Int) (resp : String)
    (hnd : (st.subscriptions.map Prod.fst).Nodup) :
    ((dictGet key st.subscriptions).isSome = true →
      (unsubscribe st key resp).2 = some ⟨some key, "delete"⟩ ∧
      (resp = "OK" →
        (unsubscribe st key resp).1 =
          { st with subscriptions := dictRemove key st.subscriptions } ∧
        dictGet key (unsubscribe st key resp).1.subscriptions = none) ∧
      (resp ≠ "OK" → (unsubscribe st key resp).1 = st)) ∧
    ((dictGet key st.subscriptions).isSome = false →
      (unsubscribe st key resp).2 = none ∧ (unsubscribe st key resp).1 = st) := by
  constructor
  · intro hreg
    unfold unsubscribe
    rw [if_pos hreg]
    by_cases hok : resp = "OK"
    · rw [if_pos hok]
      refine ⟨rfl, fun _ => ⟨rfl, ?_⟩, fun hc => absurd hok hc⟩
      exact dictGet_dictRemove_self key st.subscriptions hnd
    · rw [if_neg hok]
      exact ⟨rfl, fun hc => absurd hc hok, fun _ => rfl⟩
  · intro hreg
    unfold unsubscribe
    rw [hreg]
    exact ⟨rfl, rfl⟩

/-- Witness for C7 at a concrete client with key 1 registered. -/
theorem unsubscribe_behavior_witness :
    (unsubscribe w7st 1 "NO").1 = w7st ∧
    dictGet 1 (unsubscribe w7st 1 "OK").1.subscriptions = none ∧
    (unsubscribe w7st 2 "OK").2 = none := by
  have h1 := unsubscribe_behavior w7st 1 "NO" (by decide)
  have h2 := unsubscribe_behavior w7st 1 "OK" (by decide)
  have h3 := unsubscribe_behavior w7st 2 "OK" (by decide)
  exact ⟨(h1.1 (by decide)).2.2 (by decide), ((h2.1 (by decide)).2.1 rfl).2,
    (h3.2 (by decide)).1⟩

/-- C8: a stream line classified as data (none of empty, PROBE, ERROR,
LOOP, SYNC ERROR, END, Preamble) is handed to
`_forward_update_message`, whose whole body runs inside
`try ... except Exception`: whatever exception the parse or dispatch
raises — bad table key, unknown table, malformed item line, listener
failure — is caught there, and the receive loop continues with the next
read. -/
theorem data_line_exception_caught (fail : Event → Bool) (st : ClientState) (m : String)
    (rest : List (Option String))
    (h1 : pyStrip m.data ≠ []) (h2 : m ≠ "PROBE")
    (h3 : pyStartsWith m "ERROR" = false) (h4 : pyStartsWith m "LOOP" = false)
    (h5 : pyStartsWith m "SYNC ERROR" = false) (h6 : pyStartsWith m "END" = false)
    (h7 : pyStartsWith m "Preamble" = false) :
    receiveStep fail st (some m) = (forwardUpdateMessage fail st m, .cont) ∧
    receiveSteps fail st (some m :: rest) =
      receiveSteps fail (forwardUpdateMessage fail st m) rest ∧
    (∀ s e, forwardInner fail st m = .error (s, e) → forwardUpdateMessage fail st m = s) := by
  have hstep : receiveStep fail st (some m) = (forwardUpdateMessage fail st m, .cont) := by
    simp only [receiveStep]
    rw [if_neg h1, if_neg h2]
    simp only [h3, h4, h5, h6, h7, Bool.false_eq_true, if_false]
  refine ⟨hstep, ?_, ?_⟩
  · rw [receiveSteps, hstep]
  · intro s e he
    unfold forwardUpdateMessage
    rw [he]

/-- Witness for C8: a data line whose table key does not parse. -/
theorem data_line_exception_caught_witness :
    receiveStep failNone freshClient (some "nonsense") = (freshClient, .cont) := by
  have h := data_line_exception_caught failNone freshClient "nonsense" []
    (by decide) (by decide) (by decide) (by decide) (by decide) (by decide) (by decide)
  exact h.1

/-- C9: when the first handshake line is not the literal `OK`,
`_handle_stream` surfaces it together with all remaining buffered lines as
a handshake failure, raises, and never starts the stream-reading
background task. -/
theorem handshake_failure_raises (st : ClientState) (fl : String) (rest : List String)
    (h : fl ≠ "OK") :
    handleStream st fl rest = .failed st (fl :: rest) ∧
    (∀ st2, handleStream st fl rest ≠ HandshakeResult.started st2) := by
  have h1 : handleStream st fl rest = .failed st (fl :: rest) := by
    unfold handleStream
    rw [if_neg h]
  refine ⟨h1, fun st2 hc => ?_⟩
  rw [h1] at hc
  exact HandshakeResult.noConfusion hc

/-- Witness for C9 at a concrete failed handshake. -/
theorem handshake_failure_raises_witness :
    handleStream freshClient "ERROR 5" ["detail"] =
      .failed freshClient ["ERROR 5", "detail"] :=
  (handshake_failure_raises freshClient "ERROR 5" ["detail"] (by decide)).1

theorem get_length_sub_one (l : List α) (h : l ≠ []) :
    l.get? (l.length - 1) = some (l.getLast h) := by
  rw [List.get?_eq_getElem?, ← List.getLast?_eq_getElem?]
  exact List.getLast?_eq_getLast l h

/-- C10: `notify_update` does not validate the item position: with a
non-empty item list, position 0 indexes `item_names[-1]` — the last item —
so the emitted event carries the last item's name instead of failing,
while a position strictly greater than the number of items raises an
`IndexError` out of `notify_update`. -/
theorem notify_update_position_unchecked (sub : Subscription) (line : String)
    (fail : Event → Bool) (n : Int) (hne : sub.item_names ≠ []) :
    (pyInt ((lineTokens line).headD "") = some 0 →
      pyGet sub.item_names (0 - 1) = some (sub.item_names.getLast hne) ∧
      (eventOf failNone sub line).map Event.name = some (sub.item_names.getLast hne)) ∧
    (pyInt ((lineTokens line).headD "") = some n → (sub.item_names.length : Int) < n →
      notifyUpdateL fail sub line = .error (sub, .indexError)) := by
  have hlen : 0 < sub.item_names.length := List.length_pos.mpr hne
  constructor
  · intro hpos
    have hget : pyGet sub.item_names (0 - 1) = some (sub.item_names.getLast hne) := by
      unfold pyGet
      rw [if_neg (by omega), if_pos (by omega)]
      have htn : (((sub.item_names.length : Int) + (0 - 1)).toNat) =
          sub.item_names.length - 1 := by omega
      rw [htn]
      exact get_length_sub_one sub.item_names hne
    refine ⟨hget, ?_⟩
    simp only [eventOf, notifyUpdateL, hpos, hget]
    cases hb : sub.notify_new_values <;> simp [hb, failNone]
  · intro hpos hgt
    have hget : pyGet sub.item_names (n - 1) = none := by
      unfold pyGet
      rw [if_pos (by omega)]
      rw [List.get?_eq_none]
      omega
    simp only [notifyUpdateL, hpos, hget]

/-- Witness for C10: position 0 on items `[a, b]` names `b`; position 3
raises. -/
theorem notify_update_position_unchecked_witness :
    (eventOf failNone w10sub "0|X").map Event.name = some "b" ∧
    notifyUpdateL failNone w10sub "3|X" = .error (w10sub, .indexError) := by
  have ha := notify_update_position_unchecked w10sub "0|X" failNone 0 (by decide)
  have hb := notify_update_position_unchecked w10sub "3|X" failNone 3 (by decide)
  exact ⟨(ha.1 (by decide)).2, hb.2 (by decide) (by decide)⟩

end LSClient
